import Mathlib

/-!
Shallow embedding of `contrib/gen-golden.py`, the golden-image generation
pipeline: font resolution via an external font-matching query (`fc-match`),
a literal table of rendering specifications, rasterization through an
abstract reference rasterizer, and persistence of the rendered images.

External effects (the `fc-match` subprocess, the filesystem, FreeType
rasterization) are modelled by an `Env` record of abstract functions; the
script's behaviour is embedded as pure functions over that record.
-/

namespace GenGolden

/-- An 8-bit-per-channel RGBA pixel value. -/
structure RGBA where
  r : Nat
  g : Nat
  b : Nat
  a : Nat
deriving DecidableEq, Repr

/-- Opaque black, the fixed canvas background `(0, 0, 0, 255)`. -/
def black : RGBA := ⟨0, 0, 0, 255⟩

/-- Opaque white, the fixed text fill `(255, 255, 255, 255)`. -/
def white : RGBA := ⟨255, 255, 255, 255⟩

/-- A raster image: fixed dimensions plus a pixel function.  Mirrors a
Pillow `Image` in mode RGBA. -/
structure Image where
  width : Nat
  height : Nat
  px : Nat → Nat → RGBA

/-- `Image.new("RGBA", (w, h), c)`: a `w × h` canvas filled with `c`. -/
def Image.new (w h : Nat) (c : RGBA) : Image :=
  ⟨w, h, fun _ _ => c⟩

/-- One channel of alpha-compositing a fill over a background at an
antialiasing coverage `cov ∈ [0, 255]`. -/
def blendCh (bg fg cov : Nat) : Nat :=
  (bg * (255 - cov) + fg * cov) / 255

/-- Composite `fg` over `bg` at coverage `cov`, channel-wise. -/
def blend (bg fg : RGBA) (cov : Nat) : RGBA :=
  ⟨blendCh bg.r fg.r cov, blendCh bg.g fg.g cov, blendCh bg.b fg.b cov,
   blendCh bg.a fg.a cov⟩

/-- `GoldenSpec`: the dataclass describing one golden image.  `left` and
`top` default to 10 in the source. -/
structure GoldenSpec where
  name : String
  text : String
  font_size : Nat
  width : Nat
  height : Nat
  font_path : String
  left : Int := 10
  top : Int := 10

/-- The abstract external world: the `fc-match` query (`none` models a
non-zero exit status, `some out` its stdout), file existence, whether
`ImageFont.truetype` succeeds on a path at a size, and the FreeType
rasterizer's antialiasing coverage as a function of font path, font size,
text, text origin `(left, top)` and pixel coordinates `(x, y)`. -/
structure Env where
  fcMatch : String → Option String
  fileExists : String → Bool
  fontLoadable : String → Nat → Bool
  rast : String → Nat → String → Int → Int → Nat → Nat → Nat

/-- The warning printed to stderr when `fc-match` reports a missing file. -/
def warnMsg (path : String) : String :=
  "Warning: fc-match returned " ++ path ++ " but file doesn't exist"

/-- `find_font`: resolve a family via `fc-match` (`check=True`, so a
non-zero exit is fatal, modelled as `Except.error`), strip the reported
path, warn on stderr when the file does not exist, and return the path
unchanged either way. -/
def find_font (env : Env) (family : String) : Except Unit (String × List String) :=
  match env.fcMatch family with
  | none => Except.error ()
  | some out =>
    let path := out.trim
    Except.ok (path, if env.fileExists path then [] else [warnMsg path])

/-- The literal spec table `SPECS`, parameterized by the two font paths
resolved at startup (`MONO_FONT`, `SERIF_FONT`). -/
def SPECS (monoFont serifFont : String) : List GoldenSpec :=
  [ { name := "golden_document_22px_mono", text := "document",
      font_size := 22, width := 250, height := 60, font_path := monoFont },
    { name := "golden_mm_22px_mono", text := "mm",
      font_size := 22, width := 100, height := 50, font_path := monoFont },
    { name := "golden_hello_15px_mono", text := "Hello, World!",
      font_size := 15, width := 200, height := 40, font_path := monoFont },
    { name := "golden_av_22px_serif", text := "AV",
      font_size := 22, width := 100, height := 50, font_path := serifFont },
    { name := "golden_code_15px_mono", text := "fn main() \x7b",
      font_size := 15, width := 200, height := 40, font_path := monoFont } ]

/-- Helper for Python's substring test on the underlying character lists. -/
def strContainsAux (pat : List Char) : List Char → Bool
  | [] => pat.isEmpty
  | c :: rest => pat.isPrefixOf (c :: rest) || strContainsAux pat rest

/-- Python's `pat in hay`: case-sensitive substring containment. -/
def strContains (hay pat : String) : Bool :=
  strContainsAux pat.data hay.data

/-- The spec selection of `main`: with no positional names all specs are
kept; otherwise `[s for s in SPECS if any(n in s.name for n in args.names)]`. -/
def selectSpecs (specs : List GoldenSpec) (names : List String) : List GoldenSpec :=
  if names.isEmpty then specs
  else specs.filter (fun s => names.any (fun n => strContains s.name n))

/-- The golden directory `PROJECT_ROOT / "assets" / "test" / "golden"`,
as a project-relative path string. -/
def GOLDEN_DIR : String := "assets/test/golden"

/-- The canonical output path `GOLDEN_DIR / f"{name}.png"`. -/
def goldenPath (name : String) : String :=
  GOLDEN_DIR ++ "/" ++ name ++ ".png"

/-- The preview side-channel path `/tmp/msdf_tests / f"{name}_freetype.png"`. -/
def previewPath (name : String) : String :=
  "/tmp/msdf_tests/" ++ name ++ "_freetype.png"

/-- `draw.text((left, top), text, font, fill)` on an RGBA image: every
pixel of the canvas is composited with `fill` at the rasterizer's coverage;
the canvas dimensions are untouched (overflow is clipped, never resized). -/
def drawTextOn (rast : String → Nat → String → Int → Int → Nat → Nat → Nat)
    (fontPath : String) (fontSize : Nat) (text : String)
    (left top : Int) (fill : RGBA) (img : Image) : Image :=
  { img with px := fun x y => blend (img.px x y) fill (rast fontPath fontSize text left top x y) }

/-- `render_golden`: allocate a `(width, height)` RGBA canvas filled with
opaque black, load the font at `font_path`/`font_size` (`none` models the
`ImageFont.truetype` exception), then draw `text` in opaque white at
`(left, top)`. -/
def render_golden (env : Env) (spec : GoldenSpec) : Option Image :=
  let img := Image.new spec.width spec.height black
  if env.fontLoadable spec.font_path spec.font_size then
    some (drawTextOn env.rast spec.font_path spec.font_size spec.text
      spec.left spec.top white img)
  else none

/-- The parsed command line: `--preview`, `--list`, positional `names`. -/
structure Args where
  preview : Bool
  listFlag : Bool
  names : List String

/-- The generation loop of `main`: for each spec render and save to the
golden path, plus a preview copy when `--preview` is set.  A render
failure raises, aborting the loop: writes of earlier specs remain, the
run fails. -/
def processSpecs (env : Env) (preview : Bool) : List GoldenSpec → List (String × Image) × Bool
  | [] => ([], true)
  | s :: rest =>
    match render_golden env s with
    | none => ([], false)
    | some img =>
      let here := (goldenPath s.name, img) ::
        (if preview then [(previewPath s.name, img)] else [])
      let r := processSpecs env preview rest
      (here ++ r.1, r.2)

/-- The observable outcome of one run: directories created, files written
in order (path, content), and whether the process exits zero. -/
structure RunResult where
  dirsCreated : List String
  writes : List (String × Image)
  ok : Bool

/-- The whole script: `MONO_FONT`/`SERIF_FONT` are resolved at import
time, before `main`; a query failure aborts before the spec table is built
or any directory or file is touched.  `main` then creates `GOLDEN_DIR`
(recursively, no existence guard), selects specs, and either lists or
generates. -/
def run (env : Env) (args : Args) : RunResult :=
  match find_font env "monospace", find_font env "serif" with
  | Except.ok (mono, _), Except.ok (serif, _) =>
    let specs := selectSpecs (SPECS mono serif) args.names
    if args.listFlag then ⟨[GOLDEN_DIR], [], true⟩
    else
      let r := processSpecs env args.preview specs
      ⟨[GOLDEN_DIR], r.1, r.2⟩
  | _, _ => ⟨[], [], false⟩

/-- The filesystem as a partial map from paths to image contents. -/
def FS : Type := String → Option Image

/-- `img.save(path)`: an unconditional overwrite of `path`. -/
def saveTo (fs : FS) (path : String) (img : Image) : FS :=
  fun q => if q = path then some img else fs q

/-- Apply a run's writes to a filesystem, in order. -/
def applyWrites (fs : FS) (ws : List (String × Image)) : FS :=
  ws.foldl (fun f w => saveTo f w.1 w.2) fs

/-- C7: with an empty filter list, spec selection returns all specs of the
table, preserving the table's original order. -/
theorem selectSpecs_empty_returns_all (specs : List GoldenSpec) :
    selectSpecs specs [] = specs := rfl

/-- C1: with a non-empty filter list, spec selection returns exactly the
specs whose `name` contains some filter as a case-sensitive substring, in
table order (a sublist of the table, so each spec appears at most once);
on the literal five-entry table, filtering on "mono" yields the four mono
specs and excludes `golden_av_22px_serif`. -/
theorem selectSpecs_name_filter (specs : List GoldenSpec) (names : List String)
    (m s : String) (h : names ≠ []) :
    selectSpecs specs names =
      specs.filter (fun sp => names.any (fun n => strContains sp.name n)) ∧
    (selectSpecs specs names).Sublist specs ∧
    (selectSpecs (SPECS m s) ["mono"]).map GoldenSpec.name =
      ["golden_document_22px_mono", "golden_mm_22px_mono",
       "golden_hello_15px_mono", "golden_code_15px_mono"] := by
  have hne : names.isEmpty = false := by
    cases names with
    | nil => exact absurd rfl h
    | cons a t => rfl
  refine ⟨by simp [selectSpecs, hne], ?_, rfl⟩
  rw [selectSpecs]
  simp only [hne, Bool.false_eq_true, if_false]
  exact List.filter_sublist specs

/-- C1 witness: the filter hypothesis holds for `["mono"]` and the
filtered names are exactly the four mono specs. -/
theorem selectSpecs_name_filter_witness :
    (["mono"] : List String) ≠ [] ∧
    (selectSpecs (SPECS "mono.ttf" "serif.ttf") ["mono"]).map GoldenSpec.name =
      ["golden_document_22px_mono", "golden_mm_22px_mono",
       "golden_hello_15px_mono", "golden_code_15px_mono"] :=
  ⟨by decide,
   (selectSpecs_name_filter (SPECS "mono.ttf" "serif.ttf") ["mono"]
     "mono.ttf" "serif.ttf" (by decide)).2.2⟩

/-- C8: in the literal spec table the names are pairwise distinct, and
every entry has positive width, height and font size. -/
theorem SPECS_invariants (m s : String) :
    ((SPECS m s).map GoldenSpec.name).Nodup ∧
    ∀ sp ∈ SPECS m s, 0 < sp.width ∧ 0 < sp.height ∧ 0 < sp.font_size := by
  constructor
  · show (["golden_document_22px_mono", "golden_mm_22px_mono",
      "golden_hello_15px_mono", "golden_av_22px_serif",
      "golden_code_15px_mono"] : List String).Nodup
    decide
  · intro sp hsp
    simp only [SPECS, List.mem_cons, List.not_mem_nil, or_false] at hsp
    rcases hsp with rfl | rfl | rfl | rfl | rfl <;>
      exact ⟨by norm_num, by norm_num, by norm_num⟩

/-- C4: if either `fc-match` query exits non-zero, the run fails before
any spec is processed: no files are written and no directory is created. -/
theorem fontQueryFailure_aborts (env : Env) (args : Args)
    (h : env.fcMatch "monospace" = none ∨ env.fcMatch "serif" = none) :
    (run env args).writes = [] ∧ (run env args).dirsCreated = [] ∧
    (run env args).ok = false := by
  rcases h with h | h
  · simp [run, find_font, h]
  · cases hm : env.fcMatch "monospace" <;> simp [run, find_font, h, hm]

/-- C4 witness: a concrete environment whose monospace query fails. -/
theorem fontQueryFailure_aborts_witness :
    ((fun _ => none : String → Option String) "monospace" = none ∨
      (fun _ => none : String → Option String) "serif" = none) ∧
    ((run ⟨fun _ => none, fun _ => false, fun _ _ => true, fun _ _ _ _ _ _ _ => 0⟩
        ⟨false, false, []⟩).writes = [] ∧
     (run ⟨fun _ => none, fun _ => false, fun _ _ => true, fun _ _ _ _ _ _ _ => 0⟩
        ⟨false, false, []⟩).dirsCreated = [] ∧
     (run ⟨fun _ => none, fun _ => false, fun _ _ => true, fun _ _ _ _ _ _ _ => 0⟩
        ⟨false, false, []⟩).ok = false) :=
  ⟨Or.inl rfl,
   fontQueryFailure_aborts
     ⟨fun _ => none, fun _ => false, fun _ _ => true, fun _ _ _ _ _ _ _ => 0⟩
     ⟨false, false, []⟩ (Or.inl rfl)⟩

/-- C5: if the query succeeds but the reported (stripped) path does not
exist, `find_font` is non-fatal: it returns the invalid path unchanged,
together with the diagnostic warning for stderr. -/
theorem resolutionMismatch_nonfatal (env : Env) (family out : String)
    (hq : env.fcMatch family = some out)
    (hx : env.fileExists out.trim = false) :
    find_font env family = Except.ok (out.trim, [warnMsg out.trim]) := by
  simp [find_font, hq, hx]

/-- C5 witness: a concrete environment reporting a non-existent path. -/
theorem resolutionMismatch_nonfatal_witness :
    ((fun _ => some "/gone.ttf " : String → Option String) "monospace"
        = some "/gone.ttf ") ∧
    ((fun _ => false : String → Bool) (String.trim "/gone.ttf ") = false) ∧
    find_font ⟨fun _ => some "/gone.ttf ", fun _ => false, fun _ _ => true,
        fun _ _ _ _ _ _ _ => 0⟩ "monospace"
      = Except.ok (String.trim "/gone.ttf ", [warnMsg (String.trim "/gone.ttf ")]) :=
  ⟨rfl, rfl,
   resolutionMismatch_nonfatal
     ⟨fun _ => some "/gone.ttf ", fun _ => false, fun _ _ => true,
        fun _ _ _ _ _ _ _ => 0⟩ "monospace" "/gone.ttf " rfl rfl⟩

/-- C2: for a spec with positive dimensions whose font loads,
`render_golden` returns one RGBA raster of exactly
`(spec.width, spec.height)`, whatever `spec.text` is. -/
theorem render_exact_dimensions (env : Env) (spec : GoldenSpec)
    (_hw : 0 < spec.width) (_hh : 0 < spec.height)
    (hf : env.fontLoadable spec.font_path spec.font_size = true) :
    ∃ img, render_golden env spec = some img ∧
      img.width = spec.width ∧ img.height = spec.height := by
  refine ⟨drawTextOn env.rast spec.font_path spec.font_size spec.text
    spec.left spec.top white (Image.new spec.width spec.height black), ?_, rfl, rfl⟩
  simp [render_golden, hf]

/-- C2 witness: the hello spec at a loadable font renders at 200 × 40. -/
theorem render_exact_dimensions_witness :
    0 < (200 : Nat) ∧ 0 < (40 : Nat) ∧
    (∃ img, render_golden
        ⟨fun _ => none, fun _ => true, fun _ _ => true, fun _ _ _ _ _ _ _ => 0⟩
        { name := "golden_hello_15px_mono", text := "Hello, World!",
          font_size := 15, width := 200, height := 40, font_path := "mono.ttf" }
      = some img ∧ img.width = 200 ∧ img.height = 40) :=
  ⟨by decide, by decide,
   render_exact_dimensions
     ⟨fun _ => none, fun _ => true, fun _ _ => true, fun _ _ _ _ _ _ _ => 0⟩
     { name := "golden_hello_15px_mono", text := "Hello, World!",
       font_size := 15, width := 200, height := 40, font_path := "mono.ttf" }
     (by decide) (by decide) rfl⟩

/-- Compositing at zero coverage leaves the background unchanged. -/
theorem blend_zero (bg fg : RGBA) : blend bg fg 0 = bg := by
  cases bg
  simp [blend, blendCh, Nat.mul_div_cancel]

/-- Compositing at full coverage yields the fill. -/
theorem blend_full (bg fg : RGBA) : blend bg fg 255 = fg := by
  cases fg
  simp [blend, blendCh, Nat.mul_div_cancel]

/-- C3: a rendered golden is the black-filled canvas composited with
opaque white at the external rasterizer's coverage for this font, size,
text and origin `(left, top)`: wherever coverage is zero the pixel is
opaque black, wherever it is full the pixel is opaque white, and every
pixel is exactly the blend of black and white at that coverage — no other
layout logic contributes. -/
theorem render_black_canvas_white_text (env : Env) (spec : GoldenSpec)
    (img : Image) (h : render_golden env spec = some img) :
    (∀ x y, img.px x y =
      blend black white
        (env.rast spec.font_path spec.font_size spec.text spec.left spec.top x y)) ∧
    (∀ x y, env.rast spec.font_path spec.font_size spec.text spec.left spec.top x y = 0 →
      img.px x y = black) ∧
    (∀ x y, env.rast spec.font_path spec.font_size spec.text spec.left spec.top x y = 255 →
      img.px x y = white) := by
  rw [render_golden] at h
  by_cases hf : env.fontLoadable spec.font_path spec.font_size = true
  · simp only [hf, if_true, Option.some.injEq] at h
    subst h
    refine ⟨fun x y => rfl, fun x y hc => ?_, fun x y hc => ?_⟩
    · show blend black white _ = black
      rw [hc, blend_zero]
    · show blend black white _ = white
      rw [hc, blend_full]
  · simp only [Bool.not_eq_true] at hf
    simp [hf] at h

/-- C3 witness: a concrete render where coverage vanishes at (0,0) and is
full at (1,1). -/
theorem render_black_canvas_white_text_witness :
    (render_golden
        ⟨fun _ => none, fun _ => true, fun _ _ => true,
         fun _ _ _ _ _ x y => if x = 1 ∧ y = 1 then 255 else 0⟩
        { name := "golden_mm_22px_mono", text := "mm", font_size := 22,
          width := 100, height := 50, font_path := "mono.ttf" }
      = some (drawTextOn
          (fun _ _ _ _ _ x y => if x = 1 ∧ y = 1 then 255 else 0)
          "mono.ttf" 22 "mm" 10 10 white (Image.new 100 50 black))) ∧
    (drawTextOn (fun _ _ _ _ _ x y => if x = 1 ∧ y = 1 then 255 else 0)
        "mono.ttf" 22 "mm" 10 10 white (Image.new 100 50 black)).px 0 0 = black ∧
    (drawTextOn (fun _ _ _ _ _ x y => if x = 1 ∧ y = 1 then 255 else 0)
        "mono.ttf" 22 "mm" 10 10 white (Image.new 100 50 black)).px 1 1 = white :=
  ⟨rfl,
   (render_black_canvas_white_text
      ⟨fun _ => none, fun _ => true, fun _ _ => true,
       fun _ _ _ _ _ x y => if x = 1 ∧ y = 1 then 255 else 0⟩
      { name := "golden_mm_22px_mono", text := "mm", font_size := 22,
        width := 100, height := 50, font_path := "mono.ttf" }
      _ rfl).2.1 0 0 (by decide),
   (render_black_canvas_white_text
      ⟨fun _ => none, fun _ => true, fun _ _ => true,
       fun _ _ _ _ _ x y => if x = 1 ∧ y = 1 then 255 else 0⟩
      { name := "golden_mm_22px_mono", text := "mm", font_size := 22,
        width := 100, height := 50, font_path := "mono.ttf" }
      _ rfl).2.2 1 1 (by decide)⟩

/-- C6: saving writes to the fixed golden directory joined with
`name ++ ".png"`, and the write is an unconditional overwrite: whatever
the previous filesystem held at that path — including a freshly written
stale image — afterwards the path holds exactly the new image. -/
theorem persist_overwrites (fs : FS) (nm : String) (img old : Image) :
    saveTo fs (goldenPath nm) img (goldenPath nm) = some img ∧
    saveTo (saveTo fs (goldenPath nm) old) (goldenPath nm) img (goldenPath nm)
      = some img ∧
    goldenPath nm = GOLDEN_DIR ++ "/" ++ nm ++ ".png" := by
  refine ⟨?_, ?_, rfl⟩ <;> simp [saveTo]

/-- C9: with the preview flag set, a spec that renders still gets its
normal golden write at `goldenPath`, and the very same image is
additionally written to the fixed temporary preview path, whose filename
is the spec name suffixed `_freetype`. -/
theorem preview_writes_duplicate (env : Env) (s : GoldenSpec)
    (rest : List GoldenSpec) (img : Image)
    (h : render_golden env s = some img) :
    processSpecs env true (s :: rest) =
      ((goldenPath s.name, img) :: (previewPath s.name, img) ::
        (processSpecs env true rest).1,
       (processSpecs env true rest).2) ∧
    previewPath s.name = "/tmp/msdf_tests/" ++ s.name ++ "_freetype.png" := by
  refine ⟨?_, rfl⟩
  simp [processSpecs, h]

/-- C9 witness: a concrete preview run over a single rendering spec. -/
theorem preview_writes_duplicate_witness :
    (render_golden
        ⟨fun _ => none, fun _ => true, fun _ _ => true, fun _ _ _ _ _ _ _ => 0⟩
        { name := "golden_mm_22px_mono", text := "mm", font_size := 22,
          width := 100, height := 50, font_path := "mono.ttf" }
      = some (drawTextOn (fun _ _ _ _ _ _ _ => 0) "mono.ttf" 22 "mm" 10 10
          white (Image.new 100 50 black))) ∧
    (processSpecs
        ⟨fun _ => none, fun _ => true, fun _ _ => true, fun _ _ _ _ _ _ _ => 0⟩
        true [({ name := "golden_mm_22px_mono", text := "mm", font_size := 22,
                 width := 100, height := 50, font_path := "mono.ttf" } : GoldenSpec)] =
      ((goldenPath "golden_mm_22px_mono",
          drawTextOn (fun _ _ _ _ _ _ _ => 0) "mono.ttf" 22 "mm" 10 10
            white (Image.new 100 50 black)) ::
        (previewPath "golden_mm_22px_mono",
          drawTextOn (fun _ _ _ _ _ _ _ => 0) "mono.ttf" 22 "mm" 10 10
            white (Image.new 100 50 black)) ::
        (processSpecs
          ⟨fun _ => none, fun _ => true, fun _ _ => true, fun _ _ _ _ _ _ _ => 0⟩
          true []).1,
       (processSpecs
          ⟨fun _ => none, fun _ => true, fun _ _ => true, fun _ _ _ _ _ _ _ => 0⟩
          true []).2) ∧
     previewPath "golden_mm_22px_mono" =
       "/tmp/msdf_tests/" ++ "golden_mm_22px_mono" ++ "_freetype.png") :=
  ⟨rfl,
   preview_writes_duplicate
     ⟨fun _ => none, fun _ => true, fun _ _ => true, fun _ _ _ _ _ _ _ => 0⟩
     { name := "golden_mm_22px_mono", text := "mm", font_size := 22,
       width := 100, height := 50, font_path := "mono.ttf" } [] _ rfl⟩

/-- C10: the rendered image does not depend on the spec name — two specs
agreeing on text, font size, dimensions, font path and origin render
identically under any environment; the name only ever reaches the output
paths. -/
theorem render_independent_of_name (env : Env) (s1 s2 : GoldenSpec)
    (ht : s1.text = s2.text) (hs : s1.font_size = s2.font_size)
    (hw : s1.width = s2.width) (hh : s1.height = s2.height)
    (hp : s1.font_path = s2.font_path) (hl : s1.left = s2.left)
    (htp : s1.top = s2.top) :
    render_golden env s1 = render_golden env s2 := by
  cases s1
  cases s2
  simp_all [render_golden]

/-- C10 witness: two concrete specs differing only in name render the
same image. -/
theorem render_independent_of_name_witness :
    render_golden
      ⟨fun _ => none, fun _ => true, fun _ _ => true, fun _ _ _ _ _ _ _ => 7⟩
      { name := "golden_mm_22px_mono", text := "mm", font_size := 22,
        width := 100, height := 50, font_path := "mono.ttf" } =
    render_golden
      ⟨fun _ => none, fun _ => true, fun _ _ => true, fun _ _ _ _ _ _ _ => 7⟩
      { name := "renamed_copy", text := "mm", font_size := 22,
        width := 100, height := 50, font_path := "mono.ttf" } :=
  render_independent_of_name
    ⟨fun _ => none, fun _ => true, fun _ _ => true, fun _ _ _ _ _ _ _ => 7⟩
    { name := "golden_mm_22px_mono", text := "mm", font_size := 22,
      width := 100, height := 50, font_path := "mono.ttf" }
    { name := "renamed_copy", text := "mm", font_size := 22,
      width := 100, height := 50, font_path := "mono.ttf" }
    rfl rfl rfl rfl rfl rfl rfl

end GenGolden
